import Mathlib

/-!
Shallow embedding of the feature-extraction and statistical-aggregation
pipeline of `src/server/services/musicbrainz.ts` (class `MusicBrainzService`),
together with proofs of the specification claims about it.

Modelling conventions:
* JavaScript numbers are modelled as rationals (ℚ); `Math.sqrt` is the one
  noncomputable operation, so the `std` field of the profile is recorded by
  its radicand (`std_sq`, the population variance); theorems about `std`
  itself are stated via `Real.sqrt` applied to that radicand.
* Optional chains such as `feature.rhythm?.bpm` are flattened to a single
  `Option` field (the chain is `undefined` iff any link is missing).
  Fields of `AcousticBrainzFeatures` that the pipeline never reads
  (`beats_count`, `key_edma`, `mfcc.var`) are omitted: no claim mentions them.
* The external HTTP world is modelled as an oracle mapping the attempt
  number to the outcome of that attempt (success with a parsed body, an
  HTTP error status, or a thrown failure — network error, timeout abort,
  or JSON parse error all land in the same `catch`).
-/

namespace MusicBrainzService

/-- `RATE_LIMIT_DELAY = 1000` — fixed pre-call delay in milliseconds. -/
def rateLimitDelay : Nat := 1000

/-- `maxRetries = 3` in `searchRecording`. -/
def maxRetries : Nat := 3

/-- A raw AcousticBrainz feature document (`AcousticBrainzFeatures`),
with each optional chain used by `aggregateFeatures` flattened to one field:
`rhythm?.bpm`, `lowlevel?.mfcc?.mean`, `tonal?.chroma_cens`,
`lowlevel?.spectral_centroid?.mean`, `lowlevel?.spectral_flux?.var`,
`lowlevel?.zerocrossingrate?.mean`. -/
structure RawFeatureDocument where
  rhythm_bpm : Option ℚ
  mfcc_mean : Option (List ℚ)
  chroma_cens : Option (List ℚ)
  spectral_centroid_mean : Option ℚ
  spectral_flux_var : Option ℚ
  zerocrossingrate_mean : Option ℚ
deriving DecidableEq, Repr

/-- JavaScript truthiness filter for an optional numeric field:
`if (x) push(x)` pushes the number exactly when it is present and nonzero
(`0` is falsy; `NaN` does not arise in the rational model). -/
def truthyNum : Option ℚ → Option ℚ
  | some v => if v = 0 then none else some v
  | none => none

/-- The `tempos` accumulator of `aggregateFeatures`:
`if (feature.rhythm?.bpm) tempos.push(feature.rhythm.bpm)`. -/
def tempos (features : List RawFeatureDocument) : List ℚ :=
  features.filterMap (fun f => truthyNum f.rhythm_bpm)

/-- The `mfccs` accumulator: `if (feature.lowlevel?.mfcc?.mean) mfccs.push(...)`.
A present array is always truthy in JavaScript (even `[]`), so presence alone
decides inclusion. -/
def mfccs (features : List RawFeatureDocument) : List (List ℚ) :=
  features.filterMap (fun f => f.mfcc_mean)

/-- The `chromas` accumulator: `if (feature.tonal?.chroma_cens) chromas.push(...)`. -/
def chromas (features : List RawFeatureDocument) : List (List ℚ) :=
  features.filterMap (fun f => f.chroma_cens)

/-- The `centroids` accumulator (truthy numeric check). -/
def centroids (features : List RawFeatureDocument) : List ℚ :=
  features.filterMap (fun f => truthyNum f.spectral_centroid_mean)

/-- The `fluxes` accumulator (truthy numeric check). -/
def fluxes (features : List RawFeatureDocument) : List ℚ :=
  features.filterMap (fun f => truthyNum f.spectral_flux_var)

/-- The `zeroCrossings` accumulator (truthy numeric check). -/
def zeroCrossings (features : List RawFeatureDocument) : List ℚ :=
  features.filterMap (fun f => truthyNum f.zerocrossingrate_mean)

/-- `mean(arr)`: arithmetic mean, `0` on the empty list. -/
def mean (arr : List ℚ) : ℚ :=
  if arr.length = 0 then 0 else arr.sum / arr.length

/-- `variance(arr)`: population variance around `mean(arr)`, `0` on empty. -/
def variance (arr : List ℚ) : ℚ :=
  if arr.length = 0 then 0
  else ((arr.map (fun val => (val - mean arr) ^ 2)).sum) / arr.length

/-- `std(arr)` in the source is `Math.sqrt` of the population variance
(computed inline with the same formula as `variance`).  The square root is
noncomputable over ℝ, so the embedding records the radicand; the source's
`std` value is `Real.sqrt` of this. -/
def stdSq (arr : List ℚ) : ℚ :=
  if arr.length = 0 then 0
  else ((arr.map (fun val => (val - mean arr) ^ 2)).sum) / arr.length

/-- `meanVector(vectors)`: the result has the length of the FIRST vector
(`vectors[0]?.length || 0`); the inner loop `for i < min(length, v.length)`
adds `v[i]`, i.e. each vector contributes `v.getD i 0` at index `i`; each
slot is finally divided by the TOTAL vector count. -/
def meanVector (vectors : List (List ℚ)) : List ℚ :=
  if vectors.length = 0 then []
  else
    (List.range ((vectors.headD []).length)).map
      (fun i => ((vectors.map (fun v => v.getD i 0)).sum) / vectors.length)

/-- `varianceMatrix(vectors)`: N×N with N = `(meanVector vectors).length`;
entry [i][j] accumulates `((v[i] || 0) - mean[i]) * ((v[j] || 0) - mean[j])`
over all vectors and is divided by the vector count.  (`v[i] || 0` coincides
with `v.getD i 0`: an absent element is `undefined`, and a present `0` is
falsy but produces the same value `0`.) -/
def varianceMatrix (vectors : List (List ℚ)) : List (List ℚ) :=
  if vectors.length = 0 then []
  else
    (List.range ((meanVector vectors).length)).map (fun i =>
      (List.range ((meanVector vectors).length)).map (fun j =>
        ((vectors.map (fun v =>
          (v.getD i 0 - (meanVector vectors).getD i 0) *
            (v.getD j 0 - (meanVector vectors).getD j 0))).sum)
          / vectors.length))

/-- The comparator of `getDominantPitches`: the source sorts the
(value, index) pairs with the stable `Array.prototype.sort((a, b) => b.val - a.val)`.
A stable descending-by-value sort of pairs whose index components are
strictly increasing coincides with sorting by the total order
"greater value first, ties by smaller index first", which is what this
boolean comparator encodes (pairs are `(idx, val)` as produced by `enum`). -/
def chromaLe (a b : Nat × ℚ) : Bool :=
  decide (b.2 < a.2 ∨ (a.2 = b.2 ∧ a.1 ≤ b.1))

/-- `getDominantPitches(chromas)`: mean chroma vector, pair each value with
its index, stable-sort descending by value, return the first 3 indices. -/
def getDominantPitches (chromas : List (List ℚ)) : List Nat :=
  if chromas.length = 0 then []
  else
    ((((meanVector chromas).enum).mergeSort chromaLe).take 3).map (fun p => p.1)

/-- `tempos.length > 0 ? [Math.min(...tempos), Math.max(...tempos)] : [0, 0]`. -/
def tempoRange (ts : List ℚ) : List ℚ :=
  match ts with
  | [] => [0, 0]
  | t :: rest => [rest.foldl min t, rest.foldl max t]

/-- `tempo` block of the aggregate profile.  `std_sq` is the radicand of the
source's `std` (see `stdSq`). -/
structure TempoStats where
  mean : ℚ
  std_sq : ℚ
  range : List ℚ
deriving DecidableEq, Repr

/-- `mfcc` block of the aggregate profile. -/
structure MfccStats where
  mean_vector : List ℚ
  variance_matrix : List (List ℚ)
deriving DecidableEq, Repr

/-- `chroma` block of the aggregate profile. -/
structure ChromaStats where
  dominant_pitches : List Nat
  avg_profile : List ℚ
deriving DecidableEq, Repr

/-- `spectral` block of the aggregate profile. -/
structure SpectralStats where
  avg_centroid : ℚ
  flux_variance : ℚ
deriving DecidableEq, Repr

/-- The `AggregateProfile` returned by `aggregateFeatures` and by the empty
scaffold of `extractFeaturesFromSongs`. -/
structure AggregateProfile where
  tempo : TempoStats
  mfcc : MfccStats
  chroma : ChromaStats
  spectral : SpectralStats
  rhythm_complexity : ℚ
deriving DecidableEq, Repr

/-- `aggregateFeatures(features)`: collect the six per-document field lists
then assemble the statistics exactly as the return object does. -/
def aggregateFeatures (features : List RawFeatureDocument) : AggregateProfile :=
  { tempo :=
      { mean := mean (tempos features)
        std_sq := stdSq (tempos features)
        range := tempoRange (tempos features) }
    mfcc :=
      { mean_vector := meanVector (mfccs features)
        variance_matrix := varianceMatrix (mfccs features) }
    chroma :=
      { dominant_pitches := getDominantPitches (chromas features)
        avg_profile := meanVector (chromas features) }
    spectral :=
      { avg_centroid := mean (centroids features)
        flux_variance := variance (fluxes features) }
    rhythm_complexity := mean (zeroCrossings features) }

/-- The `emptyFeatures` scaffold returned when zero documents were
recovered across the whole batch. -/
def emptyFeatures : AggregateProfile :=
  { tempo := { mean := 0, std_sq := 0, range := [0, 0] }
    mfcc := { mean_vector := [], variance_matrix := [] }
    chroma := { dominant_pitches := [], avg_profile := [] }
    spectral := { avg_centroid := 0, flux_variance := 0 }
    rhythm_complexity := 0 }

/-- An input song: `{ artist: string; title: string }`. -/
structure Song where
  artist : String
  title : String
deriving DecidableEq, Repr

/-- An opaque MusicBrainz recording id. -/
abbrev RecordingId := String

/-- The body of the per-song loop of `extractFeaturesFromSongs`, with the
resolver and the feature fetcher abstracted as oracles: for each song in
order, resolve; on success fetch; on success append the document; the
counter increments once per song regardless of outcome.  Returns the
accumulated documents (in input order) and `processedCount`. -/
def runBatch (resolve : Song → Option RecordingId)
    (fetchDoc : RecordingId → Option RawFeatureDocument) :
    List Song → List RawFeatureDocument × Nat
  | [] => ([], 0)
  | song :: rest =>
    let contribution : List RawFeatureDocument :=
      match resolve song with
      | some mbid =>
        match fetchDoc mbid with
        | some f => [f]
        | none => []
      | none => []
    let tail := runBatch resolve fetchDoc rest
    (contribution ++ tail.1, tail.2 + 1)

/-- Result of `extractFeaturesFromSongs`.  The TypeScript field `features`
has type `any`; it is modelled as `Option AggregateProfile` so that "never
null" is a statable property rather than a typing artifact. -/
structure ExtractResult where
  features : Option AggregateProfile
  processedCount : Nat
deriving DecidableEq, Repr

/-- `extractFeaturesFromSongs(songs)`: truncate to the first 500 songs, run
the per-song loop, then either return the `emptyFeatures` scaffold (when no
documents were recovered) or aggregate once over all collected documents. -/
def extractFeaturesFromSongs (resolve : Song → Option RecordingId)
    (fetchDoc : RecordingId → Option RawFeatureDocument)
    (songs : List Song) : ExtractResult :=
  let songsToProcess := songs.take 500
  let run := runBatch resolve fetchDoc songsToProcess
  if run.1.length = 0 then
    { features := some emptyFeatures, processedCount := run.2 }
  else
    { features := some (aggregateFeatures run.1), processedCount := run.2 }

/-- Outcome of one `fetch` attempt against the MusicBrainz search endpoint,
as seen by `searchRecording`: a 2xx response with a parsed recordings list,
a non-ok HTTP status, or a thrown failure (network error, timeout abort of
the `AbortController`, or a JSON parse error — all reach the same `catch`). -/
inductive MBOutcome where
  | success (recordings : List RecordingId)
  | httpError (status : Nat)
  | failure
deriving DecidableEq, Repr

/-- Observable behaviour of one `searchRecording` call: the returned value,
the number of attempts actually made, and the sequence of `delay` calls in
milliseconds (each attempt opens with the fixed `rateLimitDelay`; a retried
attempt additionally schedules its backoff before the next attempt). -/
structure SearchTrace where
  result : Option RecordingId
  attempts : Nat
  delays : List Nat
deriving DecidableEq, Repr

/-- Backoff scheduled after a rate-limited (429) attempt:
`attempt * 2000` ms ("2s, 4s, 6s"). -/
def backoff429 (attempt : Nat) : Nat := attempt * 2000

/-- Backoff scheduled after a thrown / non-429 failed attempt:
`attempt * 1000` ms. -/
def backoffFailure (attempt : Nat) : Nat := attempt * 1000

/-- The retry loop `for (attempt = 1; attempt <= maxRetries; attempt++)` of
`searchRecording`, recursing on the remaining loop iterations (`fuel`).
Per attempt: fixed pre-call delay; on a 2xx response return the first
recording id (or `null` when the list is empty) with no further attempt;
on 429 with `attempt < maxRetries` back off `backoff429 attempt` and retry;
any other failed attempt throws into the `catch`, which returns `null` when
`attempt = maxRetries` and otherwise backs off `backoffFailure attempt` and
retries. -/
def searchGo (world : Nat → MBOutcome) : Nat → Nat → SearchTrace
  | 0, _ => { result := none, attempts := 0, delays := [] }
  | fuel + 1, attempt =>
    match world attempt with
    | MBOutcome.success recordings =>
      { result := recordings.head?, attempts := 1, delays := [rateLimitDelay] }
    | MBOutcome.httpError status =>
      if status = 429 ∧ attempt < maxRetries then
        let rest := searchGo world fuel (attempt + 1)
        { result := rest.result
          attempts := rest.attempts + 1
          delays := rateLimitDelay :: backoff429 attempt :: rest.delays }
      else if attempt = maxRetries then
        { result := none, attempts := 1, delays := [rateLimitDelay] }
      else
        let rest := searchGo world fuel (attempt + 1)
        { result := rest.result
          attempts := rest.attempts + 1
          delays := rateLimitDelay :: backoffFailure attempt :: rest.delays }
    | MBOutcome.failure =>
      if attempt = maxRetries then
        { result := none, attempts := 1, delays := [rateLimitDelay] }
      else
        let rest := searchGo world fuel (attempt + 1)
        { result := rest.result
          attempts := rest.attempts + 1
          delays := rateLimitDelay :: backoffFailure attempt :: rest.delays }

/-- `searchRecording(artist, title)` under an attempt oracle: the loop runs
from attempt 1 with `maxRetries` iterations available.  (The query string
built from artist and title only parameterises the oracle's responses, so
it is not materialised in the model.) -/
def searchRecording (world : Nat → MBOutcome) : SearchTrace :=
  searchGo world maxRetries 1

/-- Outcome of the single `fetch` of `getAudioFeatures`. -/
inductive ABOutcome where
  | success (doc : RawFeatureDocument)
  | httpError (status : Nat)
  | failure
deriving DecidableEq, Repr

/-- The `try` block of `getAudioFeatures`: a 2xx response yields the parsed
document; 404 returns `null` directly ("no features available"); any other
status throws `AcousticBrainz API error`; a network/timeout/parse failure
throws as well. -/
def getAudioFeaturesBody : ABOutcome → Except String (Option RawFeatureDocument)
  | ABOutcome.success doc => Except.ok (some doc)
  | ABOutcome.httpError status =>
    if status = 404 then Except.ok none
    else Except.error "AcousticBrainz API error"
  | ABOutcome.failure => Except.error "fetch failed"

/-- Observable behaviour of one `getAudioFeatures` call. -/
structure FetchTrace where
  result : Option RawFeatureDocument
  attempts : Nat
deriving DecidableEq, Repr

/-- `getAudioFeatures(mbid)` under an attempt oracle: exactly one attempt is
made (the body consults only `world 1`); the surrounding `catch` maps every
thrown error to `null`. -/
def getAudioFeatures (world : Nat → ABOutcome) : FetchTrace :=
  match getAudioFeaturesBody (world 1) with
  | Except.ok r => { result := r, attempts := 1 }
  | Except.error _ => { result := none, attempts := 1 }

/-- Replace every falsy (zero) scalar field by an absent one; vector fields
are untouched.  Used to state the truthiness behaviour of
`aggregateFeatures` (a zero scalar contributes exactly as an absent one). -/
def normalizeScalars (d : RawFeatureDocument) : RawFeatureDocument :=
  { d with
    rhythm_bpm := truthyNum d.rhythm_bpm
    spectral_centroid_mean := truthyNum d.spectral_centroid_mean
    spectral_flux_var := truthyNum d.spectral_flux_var
    zerocrossingrate_mean := truthyNum d.zerocrossingrate_mean }

/-- Document with mfcc mean vector `[0, 2]` and nothing else. -/
def docMfcc02 : RawFeatureDocument := ⟨none, some [0, 2], none, none, none, none⟩

/-- Document with mfcc mean vector `[4]` and nothing else. -/
def docMfcc4 : RawFeatureDocument := ⟨none, some [4], none, none, none, none⟩

/-- Document with mfcc mean vector `[1, 2]` and nothing else. -/
def docMfcc12 : RawFeatureDocument := ⟨none, some [1, 2], none, none, none, none⟩

/-- Document with a present but EMPTY mfcc mean vector. -/
def docMfccEmpty : RawFeatureDocument := ⟨none, some [], none, none, none, none⟩

/-- Document with every field absent. -/
def docMfccAbsent : RawFeatureDocument := ⟨none, none, none, none, none, none⟩

/-- Document with `rhythm.bpm = 120` and nothing else. -/
def docBpm120 : RawFeatureDocument := ⟨some 120, none, none, none, none, none⟩

/-- Document with `rhythm.bpm = 140` and nothing else. -/
def docBpm140 : RawFeatureDocument := ⟨some 140, none, none, none, none, none⟩

/-! ### Helper lemmas -/

theorem mean_perm {l l2 : List ℚ} (h : l.Perm l2) : mean l = mean l2 := by
  unfold mean
  rw [h.length_eq, h.sum_eq]

theorem stdSq_perm {l l2 : List ℚ} (h : l.Perm l2) : stdSq l = stdSq l2 := by
  unfold stdSq
  simp only [h.length_eq, mean_perm h,
    (h.map (fun val => (val - mean l2) ^ 2)).sum_eq]

theorem meanVector_perm_uniform (n : Nat) {vs vs2 : List (List ℚ)}
    (hn : ∀ v ∈ vs, v.length = n) (h : vs.Perm vs2) :
    meanVector vs = meanVector vs2 := by
  unfold meanVector
  by_cases h0 : vs.length = 0
  · rw [if_pos h0, if_pos (h.length_eq ▸ h0)]
  · have h0' : ¬vs2.length = 0 := by rw [← h.length_eq]; exact h0
    rw [if_neg h0, if_neg h0']
    have hne : vs ≠ [] := fun e => h0 (by simp [e])
    have hne2 : vs2 ≠ [] := fun e => h0' (by simp [e])
    obtain ⟨v, t, rfl⟩ := List.exists_cons_of_ne_nil hne
    obtain ⟨w, u, hw⟩ := List.exists_cons_of_ne_nil hne2
    have hv : v.length = n := hn v (by simp)
    have hwlen : w.length = n := hn w (h.mem_iff.mpr (by simp [hw]))
    rw [hw] at h ⊢
    simp only [List.headD_cons, hv, hwlen]
    refine List.map_congr_left (fun i _ => ?_)
    rw [(h.map (fun v => v.getD i 0)).sum_eq, h.length_eq]

theorem varianceMatrix_perm_uniform (n : Nat) {vs vs2 : List (List ℚ)}
    (hn : ∀ v ∈ vs, v.length = n) (h : vs.Perm vs2) :
    varianceMatrix vs = varianceMatrix vs2 := by
  have hm : meanVector vs = meanVector vs2 := meanVector_perm_uniform n hn h
  unfold varianceMatrix
  by_cases h0 : vs.length = 0
  · rw [if_pos h0, if_pos (h.length_eq ▸ h0)]
  · have h0' : ¬vs2.length = 0 := by rw [← h.length_eq]; exact h0
    rw [if_neg h0, if_neg h0']
    simp only [hm]
    refine List.map_congr_left (fun i _ => ?_)
    refine List.map_congr_left (fun j _ => ?_)
    rw [(h.map (fun v =>
      (v.getD i 0 - (meanVector vs2).getD i 0) *
        (v.getD j 0 - (meanVector vs2).getD j 0))).sum_eq, h.length_eq]

theorem getDominantPitches_perm_uniform (n : Nat) {vs vs2 : List (List ℚ)}
    (hn : ∀ v ∈ vs, v.length = n) (h : vs.Perm vs2) :
    getDominantPitches vs = getDominantPitches vs2 := by
  have hm : meanVector vs = meanVector vs2 := meanVector_perm_uniform n hn h
  unfold getDominantPitches
  by_cases h0 : vs.length = 0
  · rw [if_pos h0, if_pos (h.length_eq ▸ h0)]
  · have h0' : ¬vs2.length = 0 := by rw [← h.length_eq]; exact h0
    rw [if_neg h0, if_neg h0', hm]

theorem sum_map_getD_eq_sum_filterMap (vs : List (List ℚ)) (i : Nat) :
    (vs.map (fun v => v.getD i 0)).sum = (vs.filterMap (fun v => v[i]?)).sum := by
  induction vs with
  | nil => rfl
  | cons v rest ih =>
    simp only [List.map_cons, List.filterMap_cons, List.sum_cons]
    cases h : v[i]? with
    | none =>
      have hv : v.getD i 0 = 0 := by simp [List.getD_eq_getElem?_getD, h]
      simp only [hv, h, zero_add, ih]
    | some x =>
      have hv : v.getD i 0 = x := by simp [List.getD_eq_getElem?_getD, h]
      simp only [hv, h, List.sum_cons, ih]

theorem meanVector_nil : meanVector [] = [] := by simp [meanVector]

theorem length_meanVector (v : List ℚ) (vs : List (List ℚ)) :
    (meanVector (v :: vs)).length = v.length := by
  simp [meanVector]

theorem meanVector_getElem? (v : List ℚ) (vs : List (List ℚ)) (i : Nat)
    (hi : i < v.length) :
    (meanVector (v :: vs))[i]? =
      some ((((v :: vs).filterMap (fun w => w[i]?)).sum) / ((v :: vs).length : ℚ)) := by
  simp only [meanVector, List.length_cons]
  rw [if_neg (by simp)]
  simp only [List.headD_cons]
  rw [List.getElem?_map, List.getElem?_range hi]
  simp only [Option.map_some', Option.some.injEq]
  rw [sum_map_getD_eq_sum_filterMap]

/-! ### C4 -/

/-- C4: for a non-empty collection of numeric vectors, `meanVector` returns a
vector whose length equals the length of the first vector; the value at each
index `i` of the result is the sum over only those vectors that have an
element at index `i`, divided by the total number of vectors; the empty
collection yields the empty vector. -/
theorem meanVector_spec :
    meanVector [] = [] ∧
    ∀ (v : List ℚ) (vs : List (List ℚ)),
      (meanVector (v :: vs)).length = v.length ∧
      ∀ i : Nat, i < v.length →
        (meanVector (v :: vs))[i]? =
          some ((((v :: vs).filterMap (fun w => w[i]?)).sum) / ((v :: vs).length : ℚ)) :=
  ⟨meanVector_nil, fun v vs =>
    ⟨length_meanVector v vs, fun i hi => meanVector_getElem? v vs i hi⟩⟩

/-- Witness for `meanVector_spec` at the concrete input `[[1, 2], [3]]`
(ragged lengths: index 1 sums only over the first vector but divides by 2). -/
theorem meanVector_spec_witness :
    (meanVector [[(1 : ℚ), 2], [3]]).length = 2 ∧
    (meanVector [[(1 : ℚ), 2], [3]])[1]? =
      some (((([[(1 : ℚ), 2], [3]] : List (List ℚ)).filterMap (fun w => w[1]?)).sum) / 2) := by
  refine ⟨(meanVector_spec.2 [(1 : ℚ), 2] [[3]]).1, ?_⟩
  have h := (meanVector_spec.2 [(1 : ℚ), 2] [[3]]).2 1 (by norm_num)
  simpa using h

/-! ### C5 -/

theorem varianceMatrix_nil : varianceMatrix [] = [] := by simp [varianceMatrix]

theorem varianceMatrix_cons_eq (v : List ℚ) (vs : List (List ℚ)) :
    varianceMatrix (v :: vs) =
      (List.range (meanVector (v :: vs)).length).map (fun i =>
        (List.range (meanVector (v :: vs)).length).map (fun j =>
          (((v :: vs).map (fun w =>
            (w.getD i 0 - (meanVector (v :: vs)).getD i 0) *
              (w.getD j 0 - (meanVector (v :: vs)).getD j 0))).sum)
            / (((v :: vs).length : ℚ)))) := by
  simp only [varianceMatrix]
  rw [if_neg (by simp)]

/-- C5: for a non-empty collection of vectors, `varianceMatrix` is an N×N
matrix with N = `(meanVector vectors).length`; its [i, j] entry is the sum
over all vectors of `(v[i] − mean[i])·(v[j] − mean[j])` divided by the
vector count (population covariance), a missing element being read as 0
before differencing. -/
theorem varianceMatrix_spec :
    varianceMatrix [] = [] ∧
    ∀ (v : List ℚ) (vs : List (List ℚ)),
      (varianceMatrix (v :: vs)).length = (meanVector (v :: vs)).length ∧
      (∀ row ∈ varianceMatrix (v :: vs), row.length = (meanVector (v :: vs)).length) ∧
      ∀ i j : Nat, i < (meanVector (v :: vs)).length → j < (meanVector (v :: vs)).length →
        ((varianceMatrix (v :: vs))[i]?.bind (fun row => row[j]?)) =
          some ((((v :: vs).map (fun w =>
            (w.getD i 0 - (meanVector (v :: vs)).getD i 0) *
              (w.getD j 0 - (meanVector (v :: vs)).getD j 0))).sum)
            / (((v :: vs).length : ℚ))) := by
  refine ⟨varianceMatrix_nil, fun v vs => ?_⟩
  rw [varianceMatrix_cons_eq]
  refine ⟨by simp, ?_, ?_⟩
  · intro row hrow
    rcases List.mem_map.mp hrow with ⟨i, _, rfl⟩
    simp
  · intro i j hi hj
    rw [List.getElem?_map, List.getElem?_range hi]
    simp only [Option.map_some', Option.some_bind]
    rw [List.getElem?_map, List.getElem?_range hj]
    simp

/-- Witness for `varianceMatrix_spec` at `[[1, 3], [3]]`. -/
theorem varianceMatrix_spec_witness :
    (varianceMatrix [[(1 : ℚ), 3], [3]]).length = (meanVector [[(1 : ℚ), 3], [3]]).length ∧
    ((varianceMatrix [[(1 : ℚ), 3], [3]])[0]?.bind (fun row => row[1]?)) =
      some (((([[(1 : ℚ), 3], [3]] : List (List ℚ)).map (fun w =>
        (w.getD 0 0 - (meanVector [[(1 : ℚ), 3], [3]]).getD 0 0) *
          (w.getD 1 0 - (meanVector [[(1 : ℚ), 3], [3]]).getD 1 0))).sum) / 2) := by
  have h := varianceMatrix_spec.2 [(1 : ℚ), 3] [[3]]
  have hlen : (meanVector [[(1 : ℚ), 3], [3]]).length = 2 := length_meanVector _ _
  refine ⟨h.1, ?_⟩
  have he := h.2.2 0 1 (by rw [hlen]; norm_num) (by rw [hlen]; norm_num)
  simpa using he

/-! ### C2 -/

theorem runBatch_snd (resolve : Song → Option RecordingId)
    (fetchDoc : RecordingId → Option RawFeatureDocument) :
    ∀ songs : List Song, (runBatch resolve fetchDoc songs).2 = songs.length := by
  intro songs
  induction songs with
  | nil => rfl
  | cons s rest ih => simp [runBatch, ih]

theorem runBatch_fst (resolve : Song → Option RecordingId)
    (fetchDoc : RecordingId → Option RawFeatureDocument) :
    ∀ songs : List Song,
      (runBatch resolve fetchDoc songs).1 =
        songs.filterMap (fun s => (resolve s).bind fetchDoc) := by
  intro songs
  induction songs with
  | nil => rfl
  | cons s rest ih =>
    simp only [runBatch, List.filterMap_cons]
    cases hr : resolve s with
    | none => simpa [hr] using ih
    | some mbid =>
      cases hf : fetchDoc mbid with
      | none => simpa [hr, hf] using ih
      | some d => simpa [hr, hf] using ih

/-- C2: `extractFeaturesFromSongs` attempts only the first 500 songs (the
result is insensitive to anything past index 500), and `processedCount`
counts every attempted song exactly once: it equals
`min (songs.length) 500` for every input and every oracle behaviour. -/
theorem extractFeatures_batch_cap :
    (∀ (resolve : Song → Option RecordingId)
       (fetchDoc : RecordingId → Option RawFeatureDocument) (songs : List Song),
      (extractFeaturesFromSongs resolve fetchDoc songs).processedCount =
        min songs.length 500) ∧
    (∀ (resolve : Song → Option RecordingId)
       (fetchDoc : RecordingId → Option RawFeatureDocument) (songs : List Song),
      extractFeaturesFromSongs resolve fetchDoc songs =
        extractFeaturesFromSongs resolve fetchDoc (songs.take 500)) := by
  constructor
  · intro resolve fetchDoc songs
    simp only [extractFeaturesFromSongs]
    split <;> simp [runBatch_snd, Nat.min_comm]
  · intro resolve fetchDoc songs
    simp only [extractFeaturesFromSongs, List.take_take, Nat.min_self]

/-! ### C1 -/

/-- C1: for every input batch and every oracle behaviour, the orchestrator
returns a well-formed profile: the `features` field is never absent; when
zero documents are recovered (in particular on the empty batch) it is the
all-zero/empty `emptyFeatures` scaffold, whose fields are spelled out; and
inside `aggregateFeatures` every field whose source collection is empty is
0 (resp. empty, resp. `[0, 0]` for the tempo range). -/
theorem extractFeatures_totality :
    (∀ (resolve : Song → Option RecordingId)
       (fetchDoc : RecordingId → Option RawFeatureDocument) (songs : List Song),
      ((extractFeaturesFromSongs resolve fetchDoc songs).features).isSome = true) ∧
    (∀ (resolve : Song → Option RecordingId)
       (fetchDoc : RecordingId → Option RawFeatureDocument),
      extractFeaturesFromSongs resolve fetchDoc [] =
        { features := some emptyFeatures, processedCount := 0 }) ∧
    (∀ (resolve : Song → Option RecordingId)
       (fetchDoc : RecordingId → Option RawFeatureDocument) (songs : List Song),
      (runBatch resolve fetchDoc (songs.take 500)).1 = [] →
        (extractFeaturesFromSongs resolve fetchDoc songs).features = some emptyFeatures) ∧
    (emptyFeatures.tempo.mean = 0 ∧ emptyFeatures.tempo.std_sq = 0 ∧
      Real.sqrt ((emptyFeatures.tempo.std_sq : ℚ) : ℝ) = 0 ∧
      emptyFeatures.tempo.range = [0, 0] ∧
      emptyFeatures.mfcc.mean_vector = [] ∧
      emptyFeatures.mfcc.variance_matrix = [] ∧
      emptyFeatures.chroma.dominant_pitches = [] ∧
      emptyFeatures.chroma.avg_profile = [] ∧
      emptyFeatures.spectral.avg_centroid = 0 ∧
      emptyFeatures.spectral.flux_variance = 0 ∧
      emptyFeatures.rhythm_complexity = 0) ∧
    (∀ docs : List RawFeatureDocument,
      (tempos docs = [] →
        (aggregateFeatures docs).tempo = { mean := 0, std_sq := 0, range := [0, 0] }) ∧
      (mfccs docs = [] →
        (aggregateFeatures docs).mfcc = { mean_vector := [], variance_matrix := [] }) ∧
      (chromas docs = [] →
        (aggregateFeatures docs).chroma = { dominant_pitches := [], avg_profile := [] }) ∧
      (centroids docs = [] → (aggregateFeatures docs).spectral.avg_centroid = 0) ∧
      (fluxes docs = [] → (aggregateFeatures docs).spectral.flux_variance = 0) ∧
      (zeroCrossings docs = [] → (aggregateFeatures docs).rhythm_complexity = 0)) := by
  refine ⟨?_, ?_, ?_, ?_, ?_⟩
  · intro resolve fetchDoc songs
    simp only [extractFeaturesFromSongs]
    split <;> rfl
  · intro resolve fetchDoc
    rfl
  · intro resolve fetchDoc songs h
    simp [extractFeaturesFromSongs, h]
  · refine ⟨rfl, rfl, ?_, rfl, rfl, rfl, rfl, rfl, rfl, rfl, rfl⟩
    simp [emptyFeatures]
  · intro docs
    refine ⟨?_, ?_, ?_, ?_, ?_, ?_⟩
    · intro h; simp [aggregateFeatures, h, mean, stdSq, tempoRange]
    · intro h; simp [aggregateFeatures, h, meanVector_nil, varianceMatrix_nil]
    · intro h; simp [aggregateFeatures, h, meanVector_nil, getDominantPitches]
    · intro h; simp [aggregateFeatures, h, mean]
    · intro h; simp [aggregateFeatures, h, variance]
    · intro h; simp [aggregateFeatures, h, mean]

/-- Witness for `extractFeatures_totality`: with oracles that never resolve,
a one-song batch yields the scaffold, and each zero/empty default is reached
on the empty document list. -/
theorem extractFeatures_totality_witness :
    (extractFeaturesFromSongs (fun _ => none) (fun _ => none)
        [{ artist := "a", title := "b" }]).features = some emptyFeatures ∧
    (aggregateFeatures []).tempo = { mean := 0, std_sq := 0, range := [0, 0] } ∧
    (aggregateFeatures []).spectral.avg_centroid = 0 := by
  refine ⟨extractFeatures_totality.2.2.1 _ _ _ (by simp [runBatch]), ?_, ?_⟩
  · exact (extractFeatures_totality.2.2.2.2 []).1 rfl
  · exact (extractFeatures_totality.2.2.2.2 []).2.2.2.1 rfl

/-! ### C3 -/

theorem searchGo_attempts_le (world : Nat → MBOutcome) :
    ∀ (fuel attempt : Nat), (searchGo world fuel attempt).attempts ≤ fuel := by
  intro fuel
  induction fuel with
  | zero => intro attempt; simp [searchGo]
  | succ n ih =>
    intro attempt
    cases hw : world attempt with
    | success recordings => simp [searchGo, hw]
    | httpError status =>
      by_cases h1 : status = 429 ∧ attempt < maxRetries
      · simp only [searchGo, hw, if_pos h1]
        exact Nat.succ_le_succ (ih (attempt + 1))
      · by_cases h2 : attempt = maxRetries
        · subst h2
          simp [searchGo, hw, h1]
        · simp only [searchGo, hw, if_neg h1, if_neg h2]
          exact Nat.succ_le_succ (ih (attempt + 1))
    | failure =>
      by_cases h2 : attempt = maxRetries
      · subst h2
        simp [searchGo, hw]
      · simp only [searchGo, hw, if_neg h2]
        exact Nat.succ_le_succ (ih (attempt + 1))

theorem searchGo_result_none_of_never_success (world : Nat → MBOutcome)
    (hfail : ∀ k recs, world k ≠ MBOutcome.success recs) :
    ∀ (fuel attempt : Nat), (searchGo world fuel attempt).result = none := by
  intro fuel
  induction fuel with
  | zero => intro attempt; simp [searchGo]
  | succ n ih =>
    intro attempt
    cases hw : world attempt with
    | success recordings => exact absurd hw (hfail attempt recordings)
    | httpError status =>
      by_cases h1 : status = 429 ∧ attempt < maxRetries
      · simp only [searchGo, hw, if_pos h1]
        exact ih (attempt + 1)
      · by_cases h2 : attempt = maxRetries
        · subst h2
          simp [searchGo, hw, h1]
        · simp only [searchGo, hw, if_neg h1, if_neg h2]
          exact ih (attempt + 1)
    | failure =>
      by_cases h2 : attempt = maxRetries
      · subst h2
        simp [searchGo, hw]
      · simp only [searchGo, hw, if_neg h2]
        exact ih (attempt + 1)

/-- C3: `searchRecording` makes at most `maxRetries = 3` attempts; when every
attempt fails (a non-ok status or a thrown failure) it returns `null` rather
than propagating an error; the backoff scheduled after a failed attempt
strictly increases with the attempt number for each failure kind
(429: `attempt·2000` ms, other failures: `attempt·1000` ms), as the delay
trace of an always-429 world exhibits concretely. -/
theorem searchRecording_retry_policy :
    (∀ world : Nat → MBOutcome, (searchRecording world).attempts ≤ maxRetries) ∧
    (∀ world : Nat → MBOutcome,
      (∀ k recs, world k ≠ MBOutcome.success recs) →
        (searchRecording world).result = none) ∧
    (∀ a b : Nat, a < b →
      backoff429 a < backoff429 b ∧ backoffFailure a < backoffFailure b) ∧
    (searchRecording (fun _ => MBOutcome.httpError 429)).delays =
      [rateLimitDelay, backoff429 1, rateLimitDelay, backoff429 2, rateLimitDelay] := by
  refine ⟨?_, ?_, ?_, ?_⟩
  · intro world
    exact searchGo_attempts_le world maxRetries 1
  · intro world hfail
    exact searchGo_result_none_of_never_success world hfail maxRetries 1
  · intro a b hab
    unfold backoff429 backoffFailure
    omega
  · decide

/-- Witness for `searchRecording_retry_policy`: an always-429 world makes 3
attempts and resolves to `null`; the backoffs strictly increase from attempt
1 to attempt 2. -/
theorem searchRecording_retry_policy_witness :
    (searchRecording (fun _ => MBOutcome.httpError 429)).attempts ≤ maxRetries ∧
    (searchRecording (fun _ => MBOutcome.httpError 429)).result = none ∧
    backoff429 1 < backoff429 2 ∧ backoffFailure 1 < backoffFailure 2 :=
  ⟨searchRecording_retry_policy.1 _,
   searchRecording_retry_policy.2.1 _ (fun k recs h => MBOutcome.noConfusion h),
   searchRecording_retry_policy.2.2.1 1 2 (by omega)⟩

/-! ### C9 -/

/-- C9: a successful search response with zero matching recordings makes
`searchRecording` return `null` immediately: one attempt, no backoff delay
(only the fixed pre-call rate-limit delay), no retry. -/
theorem searchRecording_zero_matches :
    ∀ world : Nat → MBOutcome, world 1 = MBOutcome.success [] →
      searchRecording world =
        { result := none, attempts := 1, delays := [rateLimitDelay] } := by
  intro world h
  show searchGo world 3 1 = _
  rw [show (3 : Nat) = 2 + 1 from rfl]
  simp only [searchGo, h]
  rfl

/-- Witness for `searchRecording_zero_matches` at the constant empty-result
world. -/
theorem searchRecording_zero_matches_witness :
    searchRecording (fun _ => MBOutcome.success []) =
      { result := none, attempts := 1, delays := [rateLimitDelay] } :=
  searchRecording_zero_matches _ rfl

/-! ### C8 -/

/-- C8: `getAudioFeatures` makes exactly one attempt — its behaviour depends
only on the outcome of attempt 1 and it never retries; a 404 ("no features
available") maps to `null` as a normal outcome; any other error status or
thrown failure (timeout abort, network or parse error) also maps to `null`;
a successful response returns the parsed document; no error escapes. -/
theorem getAudioFeatures_single_attempt :
    (∀ world : Nat → ABOutcome, (getAudioFeatures world).attempts = 1) ∧
    (∀ world world2 : Nat → ABOutcome, world 1 = world2 1 →
      getAudioFeatures world = getAudioFeatures world2) ∧
    (∀ (world : Nat → ABOutcome) (doc : RawFeatureDocument),
      world 1 = ABOutcome.success doc → (getAudioFeatures world).result = some doc) ∧
    (∀ world : Nat → ABOutcome, world 1 = ABOutcome.httpError 404 →
      (getAudioFeatures world).result = none) ∧
    (∀ (world : Nat → ABOutcome) (status : Nat), world 1 = ABOutcome.httpError status →
      (getAudioFeatures world).result = none) ∧
    (∀ world : Nat → ABOutcome, world 1 = ABOutcome.failure →
      (getAudioFeatures world).result = none) := by
  refine ⟨?_, ?_, ?_, ?_, ?_, ?_⟩
  · intro world
    unfold getAudioFeatures
    cases getAudioFeaturesBody (world 1) <;> rfl
  · intro world world2 h
    unfold getAudioFeatures
    rw [h]
  · intro world doc h
    simp [getAudioFeatures, getAudioFeaturesBody, h]
  · intro world h
    simp [getAudioFeatures, getAudioFeaturesBody, h]
  · intro world status h
    by_cases h404 : status = 404 <;>
      simp [getAudioFeatures, getAudioFeaturesBody, h, h404]
  · intro world h
    simp [getAudioFeatures, getAudioFeaturesBody, h]

/-- Witness for `getAudioFeatures_single_attempt` at concrete worlds. -/
theorem getAudioFeatures_single_attempt_witness :
    (getAudioFeatures (fun _ => ABOutcome.httpError 404)).attempts = 1 ∧
    (getAudioFeatures (fun _ => ABOutcome.httpError 404)).result = none ∧
    (getAudioFeatures (fun _ => ABOutcome.httpError 503)).result = none ∧
    (getAudioFeatures (fun _ => ABOutcome.failure)).result = none :=
  ⟨getAudioFeatures_single_attempt.1 _,
   getAudioFeatures_single_attempt.2.2.2.1 _ rfl,
   getAudioFeatures_single_attempt.2.2.2.2.1 _ 503 rfl,
   getAudioFeatures_single_attempt.2.2.2.2.2 _ rfl⟩

/-! ### C6 -/

/-- C6 counterexample: the two documents carry mfcc vectors `[0, 2]` and
`[4]` of different lengths; since `meanVector` sizes its result by the FIRST
vector, swapping the two documents changes the variance matrix from 2×2 to
1×1, so aggregation is NOT insensitive to document order as claimed. -/
theorem aggregateFeatures_order_counterexample :
    List.Perm [docMfcc02, docMfcc4] [docMfcc4, docMfcc02] ∧
    (aggregateFeatures [docMfcc02, docMfcc4]).mfcc.variance_matrix ≠
      (aggregateFeatures [docMfcc4, docMfcc02]).mfcc.variance_matrix := by
  constructor
  · exact List.Perm.swap _ _ _
  · norm_num [aggregateFeatures, varianceMatrix, meanVector, mfccs,
      docMfcc02, docMfcc4, truthyNum, List.filterMap, List.range_succ]

/-- C6 (amended): permuting a fixed multiset of documents never changes the
tempo mean or std (these are genuinely order-insensitive); the variance
matrix is unchanged under permutation provided all collected mfcc vectors
share one common length, and the dominant pitches are unchanged provided all
collected chroma vectors share one common length — with ragged vector
lengths the result can depend on which vector comes first. -/
theorem aggregateFeatures_order_insensitive :
    ∀ docs docs2 : List RawFeatureDocument, docs.Perm docs2 →
      (aggregateFeatures docs).tempo.mean = (aggregateFeatures docs2).tempo.mean ∧
      (aggregateFeatures docs).tempo.std_sq = (aggregateFeatures docs2).tempo.std_sq ∧
      Real.sqrt (((aggregateFeatures docs).tempo.std_sq : ℚ) : ℝ) =
        Real.sqrt (((aggregateFeatures docs2).tempo.std_sq : ℚ) : ℝ) ∧
      (∀ n : Nat, (∀ v ∈ mfccs docs, v.length = n) →
        (aggregateFeatures docs).mfcc.variance_matrix =
          (aggregateFeatures docs2).mfcc.variance_matrix) ∧
      (∀ n : Nat, (∀ v ∈ chromas docs, v.length = n) →
        (aggregateFeatures docs).chroma.dominant_pitches =
          (aggregateFeatures docs2).chroma.dominant_pitches) := by
  intro docs docs2 h
  have ht : (tempos docs).Perm (tempos docs2) := h.filterMap _
  have hm : (mfccs docs).Perm (mfccs docs2) := h.filterMap _
  have hc : (chromas docs).Perm (chromas docs2) := h.filterMap _
  refine ⟨mean_perm ht, stdSq_perm ht, ?_, ?_, ?_⟩
  · show Real.sqrt ((stdSq (tempos docs) : ℚ) : ℝ) =
      Real.sqrt ((stdSq (tempos docs2) : ℚ) : ℝ)
    rw [stdSq_perm ht]
  · intro n hn
    exact varianceMatrix_perm_uniform n hn hm
  · intro n hn
    exact getDominantPitches_perm_uniform n hn hc

/-- Witness for `aggregateFeatures_order_insensitive` on a concrete swap of
two tempo-only documents. -/
theorem aggregateFeatures_order_insensitive_witness :
    (aggregateFeatures [docBpm120, docBpm140]).tempo.mean =
      (aggregateFeatures [docBpm140, docBpm120]).tempo.mean ∧
    (aggregateFeatures [docBpm120, docBpm140]).mfcc.variance_matrix =
      (aggregateFeatures [docBpm140, docBpm120]).mfcc.variance_matrix := by
  have h := aggregateFeatures_order_insensitive [docBpm120, docBpm140]
    [docBpm140, docBpm120] (List.Perm.swap _ _ _)
  refine ⟨h.1, h.2.2.2.1 0 ?_⟩
  intro v hv
  simp [mfccs, docBpm120, docBpm140, List.filterMap] at hv

/-! ### C10 -/

theorem truthyNum_idem (o : Option ℚ) : truthyNum (truthyNum o) = truthyNum o := by
  cases o with
  | none => rfl
  | some v =>
    by_cases h : v = 0 <;> simp [truthyNum, h]

theorem collectors_map_normalizeScalars (docs : List RawFeatureDocument) :
    tempos (docs.map normalizeScalars) = tempos docs ∧
    mfccs (docs.map normalizeScalars) = mfccs docs ∧
    chromas (docs.map normalizeScalars) = chromas docs ∧
    centroids (docs.map normalizeScalars) = centroids docs ∧
    fluxes (docs.map normalizeScalars) = fluxes docs ∧
    zeroCrossings (docs.map normalizeScalars) = zeroCrossings docs := by
  induction docs with
  | nil => exact ⟨rfl, rfl, rfl, rfl, rfl, rfl⟩
  | cons d rest ih =>
    have i1 := ih.1
    have i2 := ih.2.1
    have i3 := ih.2.2.1
    have i4 := ih.2.2.2.1
    have i5 := ih.2.2.2.2.1
    have i6 := ih.2.2.2.2.2
    simp only [tempos, mfccs, chromas, centroids, fluxes, zeroCrossings,
      List.filterMap_map] at i1 i2 i3 i4 i5 i6
    refine ⟨?_, ?_, ?_, ?_, ?_, ?_⟩ <;>
      simp [tempos, mfccs, chromas, centroids, fluxes, zeroCrossings,
        List.filterMap_cons, List.filterMap_map, normalizeScalars,
        truthyNum_idem, i1, i2, i3, i4, i5, i6]

/-- C10 counterexample: an EMPTY mfcc mean vector is a truthy JavaScript
value, so a document carrying `mfcc.mean = []` is pushed into the `mfccs`
collection and changes the aggregate — it is NOT excluded "exactly as if it
were absent" as the claim states.  The two inputs below differ only in that
field being `[]` versus absent, yet the aggregated mean vectors differ
(`[1/2, 1]` versus `[1, 2]`). -/
theorem aggregateFeatures_truthiness_counterexample :
    docMfccEmpty = { docMfccAbsent with mfcc_mean := some [] } ∧
    (aggregateFeatures [docMfcc12, docMfccEmpty]).mfcc.mean_vector ≠
      (aggregateFeatures [docMfcc12, docMfccAbsent]).mfcc.mean_vector := by
  refine ⟨rfl, ?_⟩
  norm_num [aggregateFeatures, meanVector, mfccs, docMfcc12, docMfccEmpty,
    docMfccAbsent, truthyNum, List.filterMap, List.range_succ]

/-- C10 (amended): a SCALAR field (`rhythm.bpm`, `spectral_centroid.mean`,
`spectral_flux.var`, `zerocrossingrate.mean`) whose value is `0` (falsy) is
excluded from its statistic exactly as if it were absent — normalising every
falsy scalar to "absent" leaves the whole aggregate unchanged, and in
particular a document with `bpm = 0` contributes nothing to the tempo
collection; a VECTOR field (`mfcc.mean`, `chroma_cens`), however, is
excluded only when absent: a present empty array is truthy and still counts
toward the collection (and its divisor). -/
theorem aggregateFeatures_truthiness :
    (∀ docs : List RawFeatureDocument,
      aggregateFeatures (docs.map normalizeScalars) = aggregateFeatures docs) ∧
    (∀ (l r : List RawFeatureDocument) (d : RawFeatureDocument),
      d.rhythm_bpm = some 0 → tempos (l ++ d :: r) = tempos (l ++ r)) ∧
    (∀ (l r : List RawFeatureDocument) (d : RawFeatureDocument),
      d.mfcc_mean = some [] →
        (mfccs (l ++ d :: r)).length = (mfccs (l ++ r)).length + 1) := by
  refine ⟨?_, ?_, ?_⟩
  · intro docs
    have h := collectors_map_normalizeScalars docs
    unfold aggregateFeatures
    rw [h.1, h.2.1, h.2.2.1, h.2.2.2.1, h.2.2.2.2.1, h.2.2.2.2.2]
  · intro l r d hd
    simp [tempos, List.filterMap_append, List.filterMap_cons, hd, truthyNum]
  · intro l r d hd
    simp [mfccs, List.filterMap_append, List.filterMap_cons, hd]
    omega

/-- Witness for `aggregateFeatures_truthiness` at concrete inputs: a zero
bpm contributes nothing to the tempo collection, and a present empty mfcc
vector still counts toward the mfcc collection. -/
theorem aggregateFeatures_truthiness_witness :
    aggregateFeatures ([docBpm120].map normalizeScalars) =
      aggregateFeatures [docBpm120] ∧
    tempos ([docBpm120] ++ (⟨some 0, none, none, none, none, none⟩ : RawFeatureDocument) :: [docBpm140]) =
      tempos ([docBpm120] ++ [docBpm140]) ∧
    (mfccs ([docBpm120] ++ docMfccEmpty :: [])).length =
      (mfccs ([docBpm120] ++ [])).length + 1 :=
  ⟨aggregateFeatures_truthiness.1 [docBpm120],
   aggregateFeatures_truthiness.2.1 [docBpm120] [docBpm140] _ rfl,
   aggregateFeatures_truthiness.2.2 [docBpm120] [] docMfccEmpty rfl⟩

/-! ### C7 -/

theorem chromaLe_trans : ∀ (a b c : Nat × ℚ),
    chromaLe a b → chromaLe b c → chromaLe a c := by
  intro a b c hab hbc
  simp only [chromaLe, decide_eq_true_eq] at hab hbc ⊢
  rcases hab with h1 | ⟨h1, h2⟩ <;> rcases hbc with h3 | ⟨h3, h4⟩
  · exact Or.inl (lt_trans h3 h1)
  · exact Or.inl (h3 ▸ h1)
  · exact Or.inl (by rw [h1]; exact h3)
  · exact Or.inr ⟨h1.trans h3, le_trans h2 h4⟩

theorem chromaLe_total : ∀ (a b : Nat × ℚ), chromaLe a b || chromaLe b a := by
  intro a b
  simp only [chromaLe, Bool.or_eq_true, decide_eq_true_eq]
  rcases lt_trichotomy a.2 b.2 with h | h | h
  · exact Or.inr (Or.inl h)
  · by_cases hi : a.1 ≤ b.1
    · exact Or.inl (Or.inr ⟨h, hi⟩)
    · exact Or.inr (Or.inr ⟨h.symm, le_of_not_le hi⟩)
  · exact Or.inl (Or.inl h)

theorem getDominantPitches_eq (cs : List (List ℚ)) (h : cs ≠ []) :
    getDominantPitches cs =
      ((((meanVector cs).enum).mergeSort chromaLe).take 3).map (fun p => p.1) := by
  unfold getDominantPitches
  rw [if_neg (fun e => h (List.length_eq_zero.mp e))]

theorem length_getDominantPitches (cs : List (List ℚ)) (h : cs ≠ []) :
    (getDominantPitches cs).length = min 3 (meanVector cs).length := by
  rw [getDominantPitches_eq cs h]
  simp [List.length_take]

theorem getDominantPitches_perm_range (cs : List (List ℚ)) (h : cs ≠ [])
    (hle : (meanVector cs).length ≤ 3) :
    (getDominantPitches cs).Perm (List.range (meanVector cs).length) := by
  rw [getDominantPitches_eq cs h]
  have hlen : (((meanVector cs).enum).mergeSort chromaLe).length ≤ 3 := by
    simp [hle]
  rw [List.take_of_length_le hlen]
  have hperm := (List.mergeSort_perm ((meanVector cs).enum) chromaLe).map
    (fun p : Nat × ℚ => p.1)
  exact hperm.trans (List.Perm.of_eq (List.enum_map_fst _))

theorem sorted_mem_val (cs : List (List ℚ)) :
    ∀ p ∈ List.mergeSort ((meanVector cs).enum) chromaLe,
      p.2 = (meanVector cs).getD p.1 0 := by
  intro p hp
  have hmem : p ∈ (meanVector cs).enum := List.mem_mergeSort.mp hp
  have hg : (meanVector cs)[p.1]? = some p.2 := List.mem_enum_iff_getElem?.mp hmem
  rw [List.getD_eq_getElem?_getD, hg]
  rfl

theorem sorted_pairwise_strong (cs : List (List ℚ)) :
    (List.mergeSort ((meanVector cs).enum) chromaLe).Pairwise (fun a b =>
      (meanVector cs).getD b.1 0 < (meanVector cs).getD a.1 0 ∨
        ((meanVector cs).getD a.1 0 = (meanVector cs).getD b.1 0 ∧ a.1 < b.1)) := by
  have hsorted : (List.mergeSort ((meanVector cs).enum) chromaLe).Pairwise
      (fun a b => chromaLe a b) :=
    List.sorted_mergeSort chromaLe_trans chromaLe_total ((meanVector cs).enum)
  have hfst : (List.mergeSort ((meanVector cs).enum) chromaLe).Pairwise
      (fun a b => a.1 ≠ b.1) := by
    have hnd : ((List.mergeSort ((meanVector cs).enum) chromaLe).map Prod.fst).Nodup := by
      have hperm := (List.mergeSort_perm ((meanVector cs).enum) chromaLe).map
        (Prod.fst : Nat × ℚ → Nat)
      rw [List.Perm.nodup_iff hperm]
      exact List.nodup_enum_map_fst _
    exact List.pairwise_map.mp hnd
  refine (hsorted.and hfst).imp_of_mem ?_
  intro a b ha hb hab
  obtain ⟨hle, hne⟩ := hab
  rw [← sorted_mem_val cs a ha, ← sorted_mem_val cs b hb]
  simp only [chromaLe, decide_eq_true_eq] at hle
  rcases hle with h1 | ⟨h1, h2⟩
  · exact Or.inl h1
  · exact Or.inr ⟨h1, lt_of_le_of_ne h2 hne⟩

theorem pairwise_getDominantPitches (cs : List (List ℚ)) (h : cs ≠ []) :
    (getDominantPitches cs).Pairwise (fun i j =>
      (meanVector cs).getD j 0 < (meanVector cs).getD i 0 ∨
        ((meanVector cs).getD i 0 = (meanVector cs).getD j 0 ∧ i < j)) := by
  rw [getDominantPitches_eq cs h]
  refine List.pairwise_map.mpr ?_
  exact List.Pairwise.sublist (List.take_sublist 3 _) (sorted_pairwise_strong cs)

theorem getDominantPitches_top3 (cs : List (List ℚ)) (h : cs ≠ []) :
    ∀ i ∈ getDominantPitches cs, ∀ j : Nat, j < (meanVector cs).length →
      j ∉ getDominantPitches cs →
        (meanVector cs).getD j 0 ≤ (meanVector cs).getD i 0 := by
  intro i hi j hj hnj
  rw [getDominantPitches_eq cs h] at hi hnj
  obtain ⟨p, hp, hpi⟩ := List.mem_map.mp hi
  have hq : ((j, (meanVector cs).getD j 0) : Nat × ℚ) ∈ (meanVector cs).enum := by
    apply List.mem_enum_iff_getElem?.mpr
    show (meanVector cs)[j]? = some ((meanVector cs).getD j 0)
    rw [List.getD_eq_getElem?_getD]
    rcases List.getElem?_eq_some_iff.mpr ⟨hj, rfl⟩ with h2
    rw [h2]
    rfl
  have hqsorted : ((j, (meanVector cs).getD j 0) : Nat × ℚ) ∈
      List.mergeSort ((meanVector cs).enum) chromaLe := List.mem_mergeSort.mpr hq
  rw [← List.take_append_drop 3 (List.mergeSort ((meanVector cs).enum) chromaLe)]
    at hqsorted
  rcases List.mem_append.mp hqsorted with hq3 | hq3
  · exact absurd (List.mem_map.mpr ⟨_, hq3, rfl⟩) hnj
  · have hpair := List.pairwise_append.mp
      ((List.take_append_drop 3 (List.mergeSort ((meanVector cs).enum) chromaLe)).symm
        ▸ List.sorted_mergeSort chromaLe_trans chromaLe_total ((meanVector cs).enum))
    have hrel := hpair.2.2 p hp _ hq3
    simp only [chromaLe, decide_eq_true_eq] at hrel
    have hpv : p.2 = (meanVector cs).getD p.1 0 := by
      apply sorted_mem_val cs p
      rw [← List.take_append_drop 3 (List.mergeSort ((meanVector cs).enum) chromaLe)]
      exact List.mem_append.mpr (Or.inl hp)
    rcases hrel with h1 | ⟨h1, h2⟩
    · rw [← hpi, ← hpv]
      exact le_of_lt h1
    · rw [← hpi, ← hpv, ← h1]

/-- C7: `getDominantPitches` computes the mean vector, pairs each value with
its index, sorts descending by value with ties kept in index order (stable
sort), and returns the first 3 indices: on the empty collection it returns
`[]`; otherwise the result has length `min 3 N` (so all indices when N < 3,
then forming a permutation of `range N`), is ordered by strictly descending
mean value with ties broken by ascending index, and every returned index
carries a mean value at least as large as every non-returned one; on the two
12-dimensional chroma vectors of the spec example it returns `[0, 1, 2]`. -/
theorem getDominantPitches_spec :
    getDominantPitches [] = [] ∧
    (∀ cs : List (List ℚ), cs ≠ [] →
      (getDominantPitches cs).length = min 3 (meanVector cs).length) ∧
    (∀ cs : List (List ℚ), cs ≠ [] → (meanVector cs).length ≤ 3 →
      (getDominantPitches cs).Perm (List.range (meanVector cs).length)) ∧
    (∀ cs : List (List ℚ), cs ≠ [] →
      (getDominantPitches cs).Pairwise (fun i j =>
        (meanVector cs).getD j 0 < (meanVector cs).getD i 0 ∨
          ((meanVector cs).getD i 0 = (meanVector cs).getD j 0 ∧ i < j))) ∧
    (∀ cs : List (List ℚ), cs ≠ [] →
      ∀ i ∈ getDominantPitches cs, ∀ j : Nat, j < (meanVector cs).length →
        j ∉ getDominantPitches cs →
          (meanVector cs).getD j 0 ≤ (meanVector cs).getD i 0) ∧
    getDominantPitches
        [[1, 0, 0, 0, 0, 0, 0, 0, 0, 0, 0, 0],
         [0, 1, 0, 0, 0, 0, 0, 0, 0, 0, 0, 0]] = [0, 1, 2] :=
  ⟨by simp [getDominantPitches],
   length_getDominantPitches,
   getDominantPitches_perm_range,
   pairwise_getDominantPitches,
   getDominantPitches_top3,
   by norm_num [getDominantPitches, meanVector, chromaLe, List.enum,
     List.enumFrom, List.mergeSort, List.splitInTwo, List.splitAt,
     List.splitAt.go, List.merge, List.range_succ]⟩

/-- Witness for `getDominantPitches_spec` at the concrete input `[[1, 2]]`
(mean vector of length 2 < 3, so both indices come back, larger value
first). -/
theorem getDominantPitches_spec_witness :
    (getDominantPitches [[(1 : ℚ), 2]]).length =
      min 3 (meanVector [[(1 : ℚ), 2]]).length ∧
    (getDominantPitches [[(1 : ℚ), 2]]).Perm
      (List.range (meanVector [[(1 : ℚ), 2]]).length) ∧
    (getDominantPitches [[(1 : ℚ), 2]]).Pairwise (fun i j =>
      (meanVector [[(1 : ℚ), 2]]).getD j 0 < (meanVector [[(1 : ℚ), 2]]).getD i 0 ∨
        ((meanVector [[(1 : ℚ), 2]]).getD i 0 = (meanVector [[(1 : ℚ), 2]]).getD j 0 ∧
          i < j)) :=
  ⟨getDominantPitches_spec.2.1 _ (by simp),
   getDominantPitches_spec.2.2.1 _ (by simp) (by rw [length_meanVector]; norm_num),
   getDominantPitches_spec.2.2.2.1 _ (by simp)⟩

end MusicBrainzService
